import Mathlib

/-
  Verification of the FAT16 filesystem layer of CriddOS (src/kernel/kernel.c).

  Shallow embedding: the disk is a total store `Disk = Nat → Sector`,
  `Sector = Nat → Nat` (byte index → byte value).  The ATA block device is
  modelled as an always-successful store (its polling/timeout behaviour is
  hardware timing, outside the embedding); `read_sector` / `write_sector`
  are the bounds-checked wrappers from the source.  Loops of the C source
  become structural recursions; where the C loop bound is data-dependent a
  fuel parameter is used, instantiated at call sites with a value that the
  C loop count can never exceed.
-/

namespace CriddOS

abbrev Sector := Nat → Nat
abbrev Disk := Nat → Sector

/-- the configuration constant SECTOR_SIZE (512 in the source). -/
def SECTOR_SIZE : Nat := 512
/-- the configuration constant TOTAL_SECTORS (512 in the source). -/
def TOTAL_SECTORS : Nat := 512
/-- the configuration constant BYTES_PER_SECTOR (512 in the source). -/
def BYTES_PER_SECTOR : Nat := 512
/-- the configuration constant SECTORS_PER_CLUSTER (1 in the source). -/
def SECTORS_PER_CLUSTER : Nat := 1
/-- the configuration constant RESERVED_SECTORS (1 in the source). -/
def RESERVED_SECTORS : Nat := 1
/-- the configuration constant NUM_FATS (2 in the source). -/
def NUM_FATS : Nat := 2
/-- the configuration constant ROOT_DIR_ENTRIES (512 in the source). -/
def ROOT_DIR_ENTRIES : Nat := 512
/-- the configuration constant SECTORS_PER_FAT (4 in the source). -/
def SECTORS_PER_FAT : Nat := 4

/-- root_dir_sectors(): ((ROOT_DIR_ENTRIES * 32) + (BYTES_PER_SECTOR - 1)) / BYTES_PER_SECTOR -/
def root_dir_sectors : Nat :=
  (ROOT_DIR_ENTRIES * 32 + (BYTES_PER_SECTOR - 1)) / BYTES_PER_SECTOR

/-- first_data_sector(): RESERVED_SECTORS + NUM_FATS*SECTORS_PER_FAT + root_dir_sectors() -/
def first_data_sector : Nat :=
  RESERVED_SECTORS + NUM_FATS * SECTORS_PER_FAT + root_dir_sectors

/-- first_fat_sector(): RESERVED_SECTORS -/
def first_fat_sector : Nat := RESERVED_SECTORS

/-- root directory start sector, as computed inline in fat16_write_file / fat16_read_file:
    RESERVED_SECTORS + (NUM_FATS * SECTORS_PER_FAT) -/
def root_start : Nat := RESERVED_SECTORS + NUM_FATS * SECTORS_PER_FAT

def zeroSector : Sector := fun _ => 0

/-- read_sector: bounds-checked sector read; out-of-range reads yield an
    all-zero sector.  The device itself is modelled as a total store. -/
def read_sector (d : Disk) (sec : Nat) : Sector :=
  if TOTAL_SECTORS ≤ sec then zeroSector else d sec

/-- write_sector: bounds-checked sector write; out-of-range writes are dropped. -/
def write_sector (d : Disk) (sec : Nat) (buf : Sector) : Disk :=
  if TOTAL_SECTORS ≤ sec then d else fun s => if s = sec then buf else d s

/-- single byte store into a sector buffer -/
def updateByte (s : Sector) (i v : Nat) : Sector :=
  fun j => if j = i then v else s j

/-- sequence of byte stores into a sector buffer -/
def updateBytes (s : Sector) (upds : List (Nat × Nat)) : Sector :=
  upds.foldl (fun acc p => updateByte acc p.1 p.2) s

/- ===================== fat16_init ===================== -/

/-- the BPB sector built by fat16_init (byte values at their offsets; all
    other bytes zero). -/
def bpbSector : Sector := fun i =>
  ((([(0, 0xEB), (1, 0x3C), (2, 0x90),
      -- OEM identifier "ATAFAT16"
      (3, 65), (4, 84), (5, 65), (6, 70), (7, 65), (8, 84), (9, 49), (10, 54),
      -- bytes per sector 512 LE
      (11, 0), (12, 2),
      -- sectors per cluster
      (13, 1),
      -- reserved sectors LE
      (14, 1), (15, 0),
      -- root directory entries 512 LE
      (16, 0), (17, 2),
      -- total sectors 512 LE (16-bit)
      (19, 0), (20, 2),
      -- media descriptor
      (21, 0xF8),
      -- sectors per FAT LE
      (22, 4), (23, 0),
      -- extended boot signature
      (38, 0x29),
      -- volume label "ATADISK    "
      (43, 65), (44, 84), (45, 65), (46, 68), (47, 73), (48, 83), (49, 75),
      (50, 32), (51, 32), (52, 32), (53, 32),
      -- filesystem type "FAT16   "
      (54, 70), (55, 65), (56, 84), (57, 49), (58, 54), (59, 32), (60, 32), (61, 32)]
      : List (Nat × Nat)).lookup i).getD 0)

/-- first FAT sector contents after fat16_init: media descriptor entry and
    end-of-chain marker; rest zero. -/
def fatSector0 : Sector := fun i =>
  if i = 0 then 0xF8 else if i = 1 then 0xFF else
  if i = 2 then 0xFF else if i = 3 then 0xFF else 0

/-- the zeroing loop of fat16_init: for s in [0, n) write an all-zero sector
    (written in ascending s order). -/
def zeroAll (d : Disk) : Nat → Disk
  | 0 => d
  | n + 1 => write_sector (zeroAll d n) n zeroSector

/-- the FAT-initialisation loop of fat16_init: for s in [0, n) write the
    FAT sector to both copies (copy 0 then copy 1, ascending s). -/
def initFats (d : Disk) : Nat → Disk
  | 0 => d
  | n + 1 =>
    let fatsec := if n = 0 then fatSector0 else zeroSector
    write_sector
      (write_sector (initFats d n) (first_fat_sector + n) fatsec)
      (first_fat_sector + n + SECTORS_PER_FAT) fatsec

/-- fat16_init: zero the whole volume, write the boot sector, seed both FATs. -/
def fat16_init (d : Disk) : Disk :=
  initFats (write_sector (zeroAll d TOTAL_SECTORS) 0 bpbSector) SECTORS_PER_FAT

/- ===================== FAT entry access ===================== -/

/-- fat_get_entry, single-sector (non-straddling) branch. -/
def fatGetNoStraddle (d : Disk) (cluster : Nat) : Nat :=
  let fat_offset := cluster * 2
  let sec := first_fat_sector + fat_offset / SECTOR_SIZE
  let off := fat_offset % SECTOR_SIZE
  let secbuf := read_sector d sec
  secbuf off + secbuf (off + 1) * 256

/-- fat_get_entry: read one 16-bit little-endian FAT entry, with the source's
    branch for an entry straddling a sector boundary. -/
def fat_get_entry (d : Disk) (cluster : Nat) : Nat :=
  let fat_offset := cluster * 2
  let sec := first_fat_sector + fat_offset / SECTOR_SIZE
  let off := fat_offset % SECTOR_SIZE
  let secbuf := read_sector d sec
  if off = SECTOR_SIZE - 1 then
    let nextsecbuf := read_sector d (sec + 1)
    secbuf off + nextsecbuf 0 * 256
  else
    secbuf off + secbuf (off + 1) * 256

/-- one iteration of fat_set_entry's copy loop: update one FAT copy. -/
def fatSetCopy (d : Disk) (cluster v copy : Nat) : Disk :=
  let fat_offset := cluster * 2
  let sec := first_fat_sector + fat_offset / SECTOR_SIZE
  let off := fat_offset % SECTOR_SIZE
  let secbuf := read_sector d (sec + copy * SECTORS_PER_FAT)
  let secbuf := updateByte secbuf off (v % 256)
  if off = SECTOR_SIZE - 1 then
    let d1 := write_sector d (sec + copy * SECTORS_PER_FAT) secbuf
    let nextsecbuf := read_sector d1 (sec + 1 + copy * SECTORS_PER_FAT)
    let nextsecbuf := updateByte nextsecbuf 0 (v / 256 % 256)
    write_sector d1 (sec + 1 + copy * SECTORS_PER_FAT) nextsecbuf
  else
    write_sector d (sec + copy * SECTORS_PER_FAT)
      (updateByte secbuf (off + 1) (v / 256 % 256))

/-- fat_set_entry: write a FAT entry into every FAT copy (copy 0 then copy 1). -/
def fat_set_entry (d : Disk) (cluster v : Nat) : Disk :=
  fatSetCopy (fatSetCopy d cluster v 0) cluster v 1

/-- fat_set_entry, single-sector (non-straddling) behaviour for both copies. -/
def fatSetNoStraddle (d : Disk) (cluster v : Nat) : Disk :=
  let fat_offset := cluster * 2
  let sec := first_fat_sector + fat_offset / SECTOR_SIZE
  let off := fat_offset % SECTOR_SIZE
  let d1 := write_sector d sec
    (updateByte (updateByte (read_sector d sec) off (v % 256)) (off + 1) (v / 256 % 256))
  write_sector d1 (sec + SECTORS_PER_FAT)
    (updateByte (updateByte (read_sector d1 (sec + SECTORS_PER_FAT)) off (v % 256))
      (off + 1) (v / 256 % 256))

/-- cluster_to_sector: cluster 2 is the first data cluster.  (Only ever
    called with cluster ≥ 2 in the source.) -/
def cluster_to_sector (cluster : Nat) : Nat :=
  first_data_sector + (cluster - 2) * SECTORS_PER_CLUSTER

/-- the scan loop of fat_find_free_cluster: try `count` clusters from `c`. -/
def findFreeFrom (d : Disk) : Nat → Nat → Option Nat
  | _, 0 => none
  | c, count + 1 => if fat_get_entry d c = 0 then some c else findFreeFrom d (c + 1) count

/-- fat_find_free_cluster: linear scan from cluster 2 over the data-cluster
    range; first zero entry wins; none means disk full (C returns -1). -/
def fat_find_free_cluster (d : Disk) : Option Nat :=
  findFreeFrom d 2 ((TOTAL_SECTORS - first_data_sector) / SECTORS_PER_CLUSTER)

/- ===================== make_dos_name ===================== -/

/-- uppercase an ASCII lowercase byte, as the source's `c -= 32`. -/
def upcaseByte (c : Nat) : Nat := if 97 ≤ c ∧ c ≤ 122 then c - 32 else c

/-- the filename-part loop of make_dos_name: consume while the byte is
    neither NUL nor a dot and fewer than `j` bytes were consumed; returns the
    consumed (uppercased) bytes and the unconsumed remainder. -/
def dosNameLoop : List Nat → Nat → List Nat × List Nat
  | [], _ => ([], [])
  | c :: rest, j =>
    if c = 0 ∨ c = 46 ∨ j = 0 then ([], c :: rest)
    else
      match dosNameLoop rest (j - 1) with
      | (f, r) => (upcaseByte c :: f, r)

/-- the extension-part loop of make_dos_name: consume up to `j` further
    bytes, stopping only at NUL (a dot here is copied verbatim). -/
def dosExtLoop : List Nat → Nat → List Nat × List Nat
  | [], _ => ([], [])
  | c :: rest, j =>
    if c = 0 ∨ j = 0 then ([], c :: rest)
    else
      match dosExtLoop rest (j - 1) with
      | (f, r) => (upcaseByte c :: f, r)

/-- space-pad a byte list on the right to length n. -/
def padTo (l : List Nat) (n : Nat) : List Nat := l ++ List.replicate (n - l.length) 32

/-- make_dos_name: the 11-byte space-padded short name the source builds.
    The input list stands for the bytes of the NUL-terminated C string (an
    explicit 0 byte in the list acts as the terminator). -/
def make_dos_name (input : List Nat) : List Nat :=
  match dosNameLoop input 8 with
  | (namePart, rest1) =>
    let rest2 := match rest1 with
      | c :: r => if c = 46 then r else rest1
      | [] => []
    match dosExtLoop rest2 3 with
    | (extPart, _) => padTo namePart 8 ++ padTo extPart 3

/- ===================== directory scanning ===================== -/

/-- compare the 11 name bytes of a directory entry at `off` with a dos name
    (the k-loop of the source, unrolled). -/
def entryMatches (sec : Sector) (off : Nat) (dn : List Nat) : Bool :=
  (sec (off + 0) == dn.getD 0 0) && (sec (off + 1) == dn.getD 1 0) &&
  (sec (off + 2) == dn.getD 2 0) && (sec (off + 3) == dn.getD 3 0) &&
  (sec (off + 4) == dn.getD 4 0) && (sec (off + 5) == dn.getD 5 0) &&
  (sec (off + 6) == dn.getD 6 0) && (sec (off + 7) == dn.getD 7 0) &&
  (sec (off + 8) == dn.getD 8 0) && (sec (off + 9) == dn.getD 9 0) &&
  (sec (off + 10) == dn.getD 10 0)

/-- outcome of scanning one root-directory sector in fat16_write_file:
    either a name match (offset and that entry's starting cluster), or no
    match along with the first free/deleted slot seen in this sector. -/
inductive ScanStep where
  | matched : Nat → Nat → ScanStep
  | noMatch : Option Nat → ScanStep

/-- the inner entry loop of fat16_write_file's directory scan: a 0x00 first
    byte records the slot and ends this sector's scan; 0xE5 records the slot
    and continues; an 11-byte match returns the entry's starting cluster. -/
def scanEntries (sec : Sector) (dn : List Nat) (sbase : Nat) : Nat → Nat → ScanStep
  | 0, _ => .noMatch none
  | fuel + 1, off =>
    let b := sec off
    if b = 0 then .noMatch (some (sbase + off))
    else if b = 0xE5 then
      match scanEntries sec dn sbase fuel (off + 32) with
      | .matched p c => .matched p c
      | .noMatch _ => .noMatch (some (sbase + off))
    else if entryMatches sec off dn then
      .matched (sbase + off) (sec (off + 26) + sec (off + 27) * 256)
    else scanEntries sec dn sbase fuel (off + 32)

/-- the outer sector loop of fat16_write_file's directory scan.  `cand` is
    the first free/deleted slot offset seen so far (C's found_offset while
    still no match). -/
def scanDirFrom (d : Disk) (dn : List Nat) : Nat → Nat → Option Nat → Option Nat × Nat
  | 0, _, cand => (cand, 0)
  | fuel + 1, s, cand =>
    let sec := read_sector d (root_start + s)
    match scanEntries sec dn (s * SECTOR_SIZE) 16 0 with
    | .matched p c => (some p, c)
    | .noMatch c' => scanDirFrom d dn fuel (s + 1) (cand <|> c')

/-- the whole directory scan of fat16_write_file: (found_offset, existing
    starting cluster); existing is 0 unless an entry matched. -/
def scanDir (d : Disk) (dn : List Nat) : Option Nat × Nat :=
  scanDirFrom d dn root_dir_sectors 0 none

/-- the chain-freeing loop of fat16_write_file: while 2 ≤ c < 0xFFF8, read
    the next link, zero the entry, stop at an end-of-chain link.  The C
    while-loop always terminates within 0x10000 iterations (each iteration
    zeroes the visited entry, so a revisited cluster reads 0 and the loop
    exits), which the fuel parameter over-approximates. -/
def freeChain (d : Disk) : Nat → Nat → Disk
  | _, 0 => d
  | c, fuel + 1 =>
    if 2 ≤ c ∧ c < 0xFFF8 then
      let next := fat_get_entry d c
      let d1 := fat_set_entry d c 0
      if 0xFFF8 ≤ next then d1 else freeChain d1 next fuel
    else d

/-- the cluster allocation/data loop of fat16_write_file.  Returns
    (completed?, disk, first_cluster, prev_cluster); completed? is false when
    fat_find_free_cluster failed (C returns -1 there, with the partial
    writes already on disk).  Fuel is instantiated with the byte count,
    which bounds the iteration count since every iteration consumes at
    least one byte. -/
def allocWrite (data : List Nat) : Nat → Disk → Nat → Nat → Nat → Nat → Bool × Disk × Nat × Nat
  | 0, d, _, remaining, firstC, prevC => (remaining = 0, d, firstC, prevC)
  | fuel + 1, d, pos, remaining, firstC, prevC =>
    if remaining = 0 then (true, d, firstC, prevC)
    else
      match fat_find_free_cluster d with
      | none => (false, d, firstC, prevC)
      | some c =>
        let firstC' := if firstC = 0 then c else firstC
        let d1 := if prevC ≠ 0 then fat_set_entry d prevC c else d
        let tocopy := min SECTOR_SIZE remaining
        let secbuf : Sector := fun i => if i < tocopy then data.getD (pos + i) 0 else 0
        let d2 := write_sector d1 (cluster_to_sector c) secbuf
        allocWrite data fuel d2 (pos + tocopy) (remaining - tocopy) firstC' c

/-- the byte stores performed on a directory entry at in-sector offset `o` by
    the end of fat16_write_file: the 11 name bytes (the k-loop, unrolled),
    attribute 0x20, zeroed time fields 12..17, starting cluster at 26/27,
    32-bit size at 28..31 (bytes 18..25 are left as read). -/
def dirEntryUpds (o : Nat) (dn : List Nat) (firstC len : Nat) : List (Nat × Nat) :=
  [(o + 0, dn.getD 0 0), (o + 1, dn.getD 1 0), (o + 2, dn.getD 2 0),
   (o + 3, dn.getD 3 0), (o + 4, dn.getD 4 0), (o + 5, dn.getD 5 0),
   (o + 6, dn.getD 6 0), (o + 7, dn.getD 7 0), (o + 8, dn.getD 8 0),
   (o + 9, dn.getD 9 0), (o + 10, dn.getD 10 0),
   (o + 11, 0x20), (o + 12, 0), (o + 13, 0), (o + 14, 0), (o + 15, 0),
   (o + 16, 0), (o + 17, 0),
   (o + 26, firstC % 256), (o + 27, firstC / 256 % 256),
   (o + 28, len % 256), (o + 29, len / 256 % 256),
   (o + 30, len / 65536 % 256), (o + 31, len / 16777216 % 256)]

/-- the directory-entry update at the end of fat16_write_file. -/
def dirUpdate (d : Disk) (off : Nat) (dn : List Nat) (firstC len : Nat) : Disk :=
  let sidx := off / SECTOR_SIZE
  let o := off % SECTOR_SIZE
  let sec := read_sector d (root_start + sidx)
  let sec := updateBytes sec (dirEntryUpds o dn firstC len)
  write_sector d (root_start + sidx) sec

/-- fat16_write_file: scan the directory, free an existing chain, allocate
    and fill the new chain, write the directory entry.  Status 0 = success,
    -1 = failure (as the C int return). -/
def fat16_write_file (d : Disk) (name data : List Nat) : Int × Disk :=
  let dn := make_dos_name name
  match scanDir d dn with
  | (found, existing) =>
    let d1 := if 2 ≤ existing then freeChain d existing 0x10000 else d
    if data.length = 0 then
      match found with
      | none => (-1, d1)
      | some off => (0, dirUpdate d1 off dn 0 0)
    else
      match allocWrite data data.length d1 0 data.length 0 0 with
      | (false, d2, _, _) => (-1, d2)
      | (true, d2, firstC, prevC) =>
        let d3 := if prevC ≠ 0 then fat_set_entry d2 prevC 0xFFFF else d2
        match found with
        | none => (-1, d3)
        | some off => (0, dirUpdate d3 off dn firstC data.length)

/- ===================== fat16_read_file ===================== -/

/-- the inner entry loop of fat16_read_file's directory scan.  NOTE: as in
    the source, a 0x00 first byte is skipped with `continue` (it does NOT
    end the scan); a match yields (starting cluster, file size). -/
def readScanEntries (sec : Sector) (dn : List Nat) : Nat → Nat → Option (Nat × Nat)
  | 0, _ => none
  | fuel + 1, off =>
    let b := sec off
    if b = 0 then readScanEntries sec dn fuel (off + 32)
    else if b = 0xE5 then readScanEntries sec dn fuel (off + 32)
    else if entryMatches sec off dn then
      some (sec (off + 26) + sec (off + 27) * 256,
            sec (off + 28) + sec (off + 29) * 256 +
            sec (off + 30) * 65536 + sec (off + 31) * 16777216)
    else readScanEntries sec dn fuel (off + 32)

/-- the outer sector loop of fat16_read_file's directory scan. -/
def readFindFrom (d : Disk) (dn : List Nat) : Nat → Nat → Option (Nat × Nat)
  | 0, _ => none
  | fuel + 1, s =>
    match readScanEntries (read_sector d (root_start + s)) dn 16 0 with
    | some r => some r
    | none => readFindFrom d dn fuel (s + 1)

/-- fat16_read_file's directory lookup: first matching entry in scan order. -/
def readFind (d : Disk) (dn : List Nat) : Option (Nat × Nat) :=
  readFindFrom d dn root_dir_sectors 0

/-- the cluster-chain walk of fat16_read_file: while 2 ≤ c and got < toread,
    copy one cluster's worth, follow the FAT link, stop at end-of-chain.
    Returns (bytes read, the bytes in order).  Fuel is instantiated with
    `toread`, which bounds the iteration count since every iteration copies
    at least one byte. -/
def readChain (d : Disk) (toread : Nat) : Nat → Nat → Nat → Nat × List Nat
  | 0, _, got => (got, [])
  | fuel + 1, c, got =>
    if 2 ≤ c ∧ got < toread then
      let secbuf := read_sector d (cluster_to_sector c)
      let copy := min SECTOR_SIZE (toread - got)
      let chunk := (List.range copy).map secbuf
      let next := fat_get_entry d c
      if 0xFFF8 ≤ next then (got + copy, chunk)
      else
        match readChain d toread fuel next (got + copy) with
        | (g, rest) => (g, chunk ++ rest)
    else (got, [])

/-- fat16_read_file: find the entry, return (bytes read, bytes) or none for
    file-not-found (C returns -1). -/
def fat16_read_file (d : Disk) (name : List Nat) (maxlen : Nat) : Option (Nat × List Nat) :=
  let dn := make_dos_name name
  match readFind d dn with
  | none => none
  | some (start_cluster, file_size) =>
    if file_size = 0 then some (0, [])
    else
      let toread := min file_size maxlen
      some (readChain d toread toread start_cluster 0)

/- ===================== supporting lemmas ===================== -/

/-- with 16-bit entries at byte offset cluster*2 and 512-byte sectors, the
    in-sector offset of a FAT entry is even, hence never 511. -/
lemma fat_off_ne_511 (c : Nat) : c * 2 % SECTOR_SIZE ≠ SECTOR_SIZE - 1 := by
  simp only [SECTOR_SIZE]
  omega

lemma fat_get_eq_noStraddle (d : Disk) (c : Nat) :
    fat_get_entry d c = fatGetNoStraddle d c := by
  simp only [fat_get_entry, fatGetNoStraddle, if_neg (fat_off_ne_511 c)]

lemma fat_set_eq_noStraddle (d : Disk) (c v : Nat) :
    fat_set_entry d c v = fatSetNoStraddle d c v := by
  simp only [fat_set_entry, fatSetCopy, fatSetNoStraddle, if_neg (fat_off_ne_511 c)]
  norm_num

/-- pointwise description of write_sector. -/
lemma write_sector_apply (d : Disk) (sec : Nat) (b : Sector) (s i : Nat) :
    write_sector d sec b s i = if sec < TOTAL_SECTORS ∧ s = sec then b i else d s i := by
  by_cases h : TOTAL_SECTORS ≤ sec
  · rw [write_sector, if_pos h, if_neg (by omega)]
  · rw [write_sector, if_neg h]
    by_cases hs : s = sec
    · show (if s = sec then b else d s) i = _
      rw [if_pos hs, if_pos ⟨by omega, hs⟩]
    · show (if s = sec then b else d s) i = _
      rw [if_neg hs, if_neg (fun hc => hs hc.2)]

lemma updateByte_apply (s : Sector) (i v j : Nat) :
    updateByte s i v j = if j = i then v else s j := rfl

lemma read_sector_apply (d : Disk) (sec i : Nat) (h : sec < TOTAL_SECTORS) :
    read_sector d sec i = d sec i := by
  rw [read_sector, if_neg (by omega)]

/-- pointwise description of fat_get_entry for 16-bit cluster numbers: the
    two bytes of the entry are read from the copy-0 FAT sector
    `first_fat_sector + c*2/SECTOR_SIZE`, which is in range. -/
lemma fat_get_entry_apply (d : Disk) (c : Nat) (hc : c < 65536) :
    fat_get_entry d c =
      d (first_fat_sector + c * 2 / SECTOR_SIZE) (c * 2 % SECTOR_SIZE) +
      d (first_fat_sector + c * 2 / SECTOR_SIZE) (c * 2 % SECTOR_SIZE + 1) * 256 := by
  have h : first_fat_sector + c * 2 / SECTOR_SIZE < TOTAL_SECTORS := by
    show 1 + c * 2 / 512 < 512
    omega
  rw [fat_get_eq_noStraddle]
  simp only [fatGetNoStraddle]
  rw [read_sector_apply d _ _ h, read_sector_apply d _ _ h]

/-- pointwise description of one read-modify-write of a FAT sector: store the
    low byte at `off` and the high byte at `off + 1` of an in-range sector. -/
lemma wupd2_apply (d : Disk) (sec off lo hi : Nat) (hsec : sec < TOTAL_SECTORS) (s i : Nat) :
    write_sector d sec
        (updateByte (updateByte (read_sector d sec) off lo) (off + 1) hi) s i =
      if s = sec then (if i = off + 1 then hi else if i = off then lo else d s i)
      else d s i := by
  rw [write_sector_apply]
  by_cases hs : s = sec
  · subst hs
    rw [if_pos ⟨hsec, rfl⟩, if_pos rfl, updateByte_apply, updateByte_apply,
      read_sector_apply d _ _ hsec]
  · rw [if_neg (fun hh => hs hh.2), if_neg hs]

/-- pointwise description of fat_set_entry for 16-bit cluster numbers: both
    copy sectors are in range; the entry bytes are stored at the same
    in-sector offsets of the copy-0 sector and of the copy-1 sector
    (copy-0 sector + SECTORS_PER_FAT). -/
lemma fat_set_entry_apply (d : Disk) (c v : Nat) (hc : c < 65536) (s i : Nat) :
    fat_set_entry d c v s i =
      if s = first_fat_sector + c * 2 / SECTOR_SIZE ∨
         s = first_fat_sector + c * 2 / SECTOR_SIZE + SECTORS_PER_FAT then
        (if i = c * 2 % SECTOR_SIZE + 1 then v / 256 % 256
         else if i = c * 2 % SECTOR_SIZE then v % 256
         else d s i)
      else d s i := by
  have h0 : first_fat_sector + c * 2 / SECTOR_SIZE < TOTAL_SECTORS := by
    show 1 + c * 2 / 512 < 512
    omega
  have h1 : first_fat_sector + c * 2 / SECTOR_SIZE + SECTORS_PER_FAT < TOTAL_SECTORS := by
    show 1 + c * 2 / 512 + 4 < 512
    omega
  have hne : first_fat_sector + c * 2 / SECTOR_SIZE ≠
      first_fat_sector + c * 2 / SECTOR_SIZE + SECTORS_PER_FAT := by
    show 1 + c * 2 / 512 ≠ 1 + c * 2 / 512 + 4
    omega
  rw [fat_set_eq_noStraddle]
  simp only [fatSetNoStraddle]
  rw [wupd2_apply _ _ _ _ _ h1]
  by_cases hs1 : s = first_fat_sector + c * 2 / SECTOR_SIZE + SECTORS_PER_FAT
  · rw [if_pos hs1, if_pos (Or.inr hs1)]
    by_cases hi1 : i = c * 2 % SECTOR_SIZE + 1
    · rw [if_pos hi1, if_pos hi1]
    · rw [if_neg hi1, if_neg hi1]
      by_cases hi0 : i = c * 2 % SECTOR_SIZE
      · rw [if_pos hi0, if_pos hi0]
      · rw [if_neg hi0, if_neg hi0, wupd2_apply _ _ _ _ _ h0,
          if_neg (fun hh => hne (hh.symm.trans hs1))]
  · rw [if_neg hs1]
    rw [wupd2_apply _ _ _ _ _ h0]
    by_cases hs0 : s = first_fat_sector + c * 2 / SECTOR_SIZE
    · rw [if_pos hs0, if_pos (Or.inl hs0)]
    · rw [if_neg hs0, if_neg (by rintro (h | h) <;> [exact hs0 h; exact hs1 h])]

/- ===================== claim C10 ===================== -/

/-- Claim C10: with this geometry (512-byte sectors, 16-bit FAT entries at
    byte offset cluster*2), a FAT entry's in-sector offset is always even and
    therefore never SECTOR_SIZE - 1, so the sector-boundary-straddling branch
    of fat_get_entry and fat_set_entry is unreachable: for every disk state,
    cluster number and value they behave exactly like their single-sector
    versions. -/
theorem fat_entry_never_straddles (d : Disk) (c v : Nat) :
    c * 2 % SECTOR_SIZE ≠ SECTOR_SIZE - 1 ∧
    fat_get_entry d c = fatGetNoStraddle d c ∧
    fat_set_entry d c v = fatSetNoStraddle d c v :=
  ⟨fat_off_ne_511 c, fat_get_eq_noStraddle d c, fat_set_eq_noStraddle d c v⟩

/- ===================== claim C7 ===================== -/

/-- Claim C7: for every logical block address at or beyond TOTAL_SECTORS
    (512), read_sector yields an all-zero sector regardless of the device
    contents, and write_sector leaves the disk state completely unchanged;
    neither surfaces an error. -/
theorem out_of_range_sector_access (d : Disk) (sec : Nat) (buf : Sector)
    (h : TOTAL_SECTORS ≤ sec) :
    read_sector d sec = zeroSector ∧ write_sector d sec buf = d :=
  ⟨by rw [read_sector, if_pos h], by rw [write_sector, if_pos h]⟩

/-- an arbitrary nonzero disk used to instantiate theorems with out-of-range
    accesses. -/
def onesDisk : Disk := fun _ _ => 1

/-- Witness for C7 at sector 600 of a disk holding 1 in every byte. -/
theorem out_of_range_sector_access_witness :
    TOTAL_SECTORS ≤ 600 ∧
    read_sector onesDisk 600 = zeroSector ∧ write_sector onesDisk 600 zeroSector = onesDisk :=
  ⟨by decide, (out_of_range_sector_access onesDisk 600 zeroSector (by decide)).1,
    (out_of_range_sector_access onesDisk 600 zeroSector (by decide)).2⟩

/- ===================== claim C4 ===================== -/

/-- Modelled from the spec's words for comparison with make_dos_name: split
    the name on the FIRST dot, take at most 8 characters before it into the
    name field and at most 3 characters after it into the extension field,
    uppercase, space-pad to 11 bytes. -/
def specDosName8_3 (input : List Nat) : List Nat :=
  let pre := input.takeWhile (fun c => c != 46)
  let post := (input.dropWhile (fun c => c != 46)).drop 1
  padTo ((pre.take 8).map upcaseByte) 8 ++ padTo ((post.take 3).map upcaseByte) 3

/-- Counterexample for C4: on the name "abcdefghi.txt" (nine characters
    before the first dot) make_dos_name does NOT implement the split-on-
    first-dot rule: the source's name loop stops after 8 bytes while still
    before the dot, the dot is then not skipped, and the extension loop
    copies "I.T" instead of "TXT". -/
theorem make_dos_name_not_split_on_first_dot :
    make_dos_name [97, 98, 99, 100, 101, 102, 103, 104, 105, 46, 116, 120, 116] ≠
      specDosName8_3 [97, 98, 99, 100, 101, 102, 103, 104, 105, 46, 116, 120, 116] ∧
    make_dos_name [97, 98, 99, 100, 101, 102, 103, 104, 105, 46, 116, 120, 116] =
      [65, 66, 67, 68, 69, 70, 71, 72, 73, 46, 84] := by
  constructor
  · decide
  · decide

lemma mem_of_mem_dropWhileNe {l : List Nat} {p : Nat → Bool} {b : Nat}
    (h : b ∈ l.dropWhile p) : b ∈ l := by
  induction l with
  | nil => simp at h
  | cons c rest ih =>
    rw [List.dropWhile_cons] at h
    by_cases hc : p c
    · rw [if_pos hc] at h
      exact List.mem_cons_of_mem _ (ih h)
    · rw [if_neg hc] at h
      exact h

/-- the dropWhile-to-the-first-dot of a byte list is empty or starts with a
    dot. -/
lemma dropWhile_head_dot (l : List Nat) :
    l.dropWhile (fun c => c != 46) = [] ∨
    ∃ tl, l.dropWhile (fun c => c != 46) = 46 :: tl := by
  induction l with
  | nil => exact Or.inl rfl
  | cons c rest ih =>
    by_cases h : c = 46
    · subst h
      exact Or.inr ⟨rest, by rw [List.dropWhile_cons, if_neg (by simp)]⟩
    · rw [List.dropWhile_cons, if_pos (by simpa using h)]
      exact ih

/-- the name loop of make_dos_name, when the part before the first dot fits
    in the budget, consumes exactly that part (uppercased) and leaves the
    rest starting at the dot. -/
lemma dosNameLoop_eq (l : List Nat) : ∀ j, (∀ b ∈ l, b ≠ 0) →
    (l.takeWhile (fun c => c != 46)).length ≤ j →
    dosNameLoop l j =
      ((l.takeWhile (fun c => c != 46)).map upcaseByte,
       l.dropWhile (fun c => c != 46)) := by
  induction l with
  | nil => intro j _ _; rfl
  | cons c rest ih =>
    intro j hnz hlen
    by_cases hdot : c = 46
    · subst hdot
      rw [List.takeWhile_cons, if_neg (by simp), List.dropWhile_cons, if_neg (by simp)]
      rw [dosNameLoop, if_pos (Or.inr (Or.inl rfl))]
      rfl
    · have hc0 : c ≠ 0 := hnz c (List.mem_cons_self c rest)
      have hpc : (fun x => x != 46) c = true := by simpa using hdot
      rw [List.takeWhile_cons, if_pos hpc] at hlen ⊢
      rw [List.dropWhile_cons, if_pos hpc]
      have hj : j ≠ 0 := by
        intro h
        subst h
        simp at hlen
      rw [dosNameLoop, if_neg (by
        rintro (h | h | h)
        · exact hc0 h
        · exact hdot h
        · exact hj h)]
      simp only [List.length_cons] at hlen
      rw [ih (j - 1) (fun b hb => hnz b (List.mem_cons_of_mem c hb)) (by omega)]
      rfl

/-- the extension loop of make_dos_name consumes up to j bytes (uppercased),
    dots included, stopping only at a NUL. -/
lemma dosExtLoop_fst (l : List Nat) : ∀ j, (∀ b ∈ l, b ≠ 0) →
    (dosExtLoop l j).1 = (l.take j).map upcaseByte := by
  induction l with
  | nil => intro j _; simp [dosExtLoop]
  | cons c rest ih =>
    intro j hnz
    cases j with
    | zero => rw [dosExtLoop, if_pos (Or.inr rfl)]; rfl
    | succ k =>
      have hc0 : c ≠ 0 := hnz c (List.mem_cons_self c rest)
      rw [dosExtLoop, if_neg (by rintro (h | h); exacts [hc0 h, Nat.succ_ne_zero k h])]
      simp only [Nat.add_sub_cancel]
      have hrec := ih k (fun b hb => hnz b (List.mem_cons_of_mem c hb))
      rcases hre : dosExtLoop rest k with ⟨f, r⟩
      rw [hre] at hrec
      simp only [List.take_succ_cons, List.map_cons]
      show upcaseByte c :: f = upcaseByte c :: List.map upcaseByte (List.take k rest)
      rw [← hrec]

/-- Amended C4 (proved): make_dos_name agrees with the split-on-first-dot 8.3
    rule exactly when the part before the first dot is at most 8 characters
    long; whenever the name part exceeds 8 characters (dot present or not),
    the excess characters — and the dot itself — spill into the extension
    field, as the counterexample shows. -/
theorem make_dos_name_splits_when_name_fits (input : List Nat)
    (hnz : ∀ b ∈ input, b ≠ 0)
    (h8 : (input.takeWhile (fun c => c != 46)).length ≤ 8) :
    make_dos_name input = specDosName8_3 input := by
  rw [make_dos_name, dosNameLoop_eq input 8 hnz h8]
  rw [specDosName8_3]
  simp only [List.take_of_length_le h8]
  rcases dropWhile_head_dot input with hdw | ⟨tl, hdw⟩
  · rw [hdw]
    rfl
  · rw [hdw]
    simp only [List.drop_succ_cons, List.drop_zero]
    have hext := dosExtLoop_fst tl 3 (fun b hb =>
      hnz b (mem_of_mem_dropWhileNe (by rw [hdw]; exact List.mem_cons_of_mem 46 hb)))
    rcases hre : dosExtLoop tl 3 with ⟨f, r⟩
    rw [hre] at hext
    simp only [if_true]
    rw [hre, hext]

/-- Witness for the amended C4 at the name "a.txt". -/
theorem make_dos_name_splits_witness :
    make_dos_name [97, 46, 116, 120, 116] = specDosName8_3 [97, 46, 116, 120, 116] :=
  make_dos_name_splits_when_name_fits [97, 46, 116, 120, 116] (by decide) (by decide)

/- ===================== claim C3 ===================== -/

/-- a root-directory sector holding: entry 0 = a valid file "A          ",
    entry 1 = all zero (the 0x00 end-of-directory sentinel), entry 2 =
    non-zero garbage after the sentinel that happens to carry the name
    "B       TXT" with starting cluster 0 and size 0. -/
def c3DirSector : Sector := fun i =>
  if i = 0 then 65
  else if 1 ≤ i ∧ i < 11 then 32
  else if i = 64 then 66
  else if 65 ≤ i ∧ i < 72 then 32
  else if i = 72 then 84
  else if i = 73 then 88
  else if i = 74 then 84
  else 0

/-- a disk whose root directory consists of the sector above. -/
def c3Disk : Disk := fun s => if s = 9 then c3DirSector else zeroSector

/-- Claim C3 is violated by fat16_read_file: its directory scan `continue`s
    over a 0x00 entry (its own comment calls it "end of directory") instead
    of stopping, so the garbage entry named "B.TXT" placed AFTER the 0x00
    sentinel IS matched by name: the read succeeds (returning the entry's
    0-byte content) where a scan that stops at the sentinel would report
    file-not-found (none). -/
theorem read_file_matches_entry_after_sentinel :
    fat16_read_file c3Disk [98, 46, 116, 120, 116] 10 = some (0, []) ∧
    c3DirSector 32 = 0 := by
  constructor
  · decide
  · decide

/- ===================== claims C1 and C5 ===================== -/

/-- the all-zero disk underlying the freshly formatted volume. -/
def czero : Disk := fun _ _ => 0

/-- 600 bytes: 512 bytes of value 1 followed by 88 bytes of value 2. -/
def data600 : List Nat := List.replicate 512 1 ++ List.replicate 88 2

set_option maxRecDepth 10000 in
/-- Claim C1 is violated by the code at a 600-byte file on a freshly
    formatted volume: fat16_write_file never marks a freshly allocated
    cluster as used before calling fat_find_free_cluster again, so the
    second iteration allocates cluster 2 again and overwrites the first 512
    bytes; the recorded chain is the single cluster 2 (entry 2 = 0xFFFF,
    entry 3 still free), and reading the file back yields 512 bytes whose
    first byte is 2 (= data600[512]) instead of the 600 written bytes
    starting with 1. -/
theorem write_600_bytes_read_back_corrupted :
    data600.length = 600 ∧
    data600.getD 0 99 = 1 ∧
    (fat16_write_file (fat16_init czero) [97, 46, 116, 120, 116] data600).1 = 0 ∧
    fat_get_entry (fat16_write_file (fat16_init czero) [97, 46, 116, 120, 116] data600).2 2 =
      0xFFFF ∧
    fat_get_entry (fat16_write_file (fat16_init czero) [97, 46, 116, 120, 116] data600).2 3 =
      0 ∧
    (fat16_read_file (fat16_write_file (fat16_init czero) [97, 46, 116, 120, 116] data600).2
        [97, 46, 116, 120, 116] 600).map Prod.fst = some 512 ∧
    ((fat16_read_file (fat16_write_file (fat16_init czero) [97, 46, 116, 120, 116] data600).2
        [97, 46, 116, 120, 116] 600).elim 0 (fun r => r.2.getD 0 99)) = 2 := by
  refine ⟨by decide, by decide, by decide, by decide, by decide, by decide, by decide⟩

/-- 1-byte initial content for the overwrite scenario. -/
def dataOne : List Nat := [7]

/-- 600 bytes: 512 bytes of value 3 followed by 88 bytes of value 4. -/
def data600b : List Nat := List.replicate 512 3 ++ List.replicate 88 4

set_option maxRecDepth 10000 in
/-- Claim C5 is violated on its read-back conjunct: overwriting the 1-byte
    file "c.txt" with 600 bytes does free the old chain first (entry 2 is
    freed and immediately reused), but because of the same allocation bug as
    in C1 the new 600-byte content is stored as a single self-overwritten
    cluster, and fat16_read_file returns 512 bytes starting with byte value
    4 (= data2[512]) instead of data2.  (The no-leak conjunct holds: cluster
    2 is reused for the new chain and entry 3 stays free.) -/
theorem overwrite_with_600_bytes_not_read_back :
    (fat16_write_file (fat16_init czero) [99, 46, 116, 120, 116] dataOne).1 = 0 ∧
    (fat16_write_file
        (fat16_write_file (fat16_init czero) [99, 46, 116, 120, 116] dataOne).2
        [99, 46, 116, 120, 116] data600b).1 = 0 ∧
    data600b.length = 600 ∧
    (fat16_read_file
        (fat16_write_file
          (fat16_write_file (fat16_init czero) [99, 46, 116, 120, 116] dataOne).2
          [99, 46, 116, 120, 116] data600b).2
        [99, 46, 116, 120, 116] 600).map Prod.fst = some 512 ∧
    ((fat16_read_file
        (fat16_write_file
          (fat16_write_file (fat16_init czero) [99, 46, 116, 120, 116] dataOne).2
          [99, 46, 116, 120, 116] data600b).2
        [99, 46, 116, 120, 116] 600).elim 0 (fun r => r.2.getD 0 99)) = 4 ∧
    fat_get_entry
      (fat16_write_file
        (fat16_write_file (fat16_init czero) [99, 46, 116, 120, 116] dataOne).2
        [99, 46, 116, 120, 116] data600b).2 2 = 0xFFFF ∧
    fat_get_entry
      (fat16_write_file
        (fat16_write_file (fat16_init czero) [99, 46, 116, 120, 116] dataOne).2
        [99, 46, 116, 120, 116] data600b).2 3 = 0 := by
  refine ⟨by decide, by decide, by decide, by decide, by decide, by decide, by decide⟩

/- ===================== claim C6 ===================== -/

/-- the first step of the allocation loop on a full FAT: the very first
    fat_find_free_cluster call fails and the loop exits with status false
    and the disk untouched. -/
lemma allocWrite_full (data : List Nat) (d : Disk) (m : Nat)
    (hfull : fat_find_free_cluster d = none) :
    allocWrite data (m + 1) d 0 (m + 1) 0 0 = (false, d, 0, 0) := by
  rw [allocWrite, if_neg (Nat.succ_ne_zero m), hfull]

/-- Claim C6: when no free cluster exists, fat16_write_file on a name with
    no existing chain (in particular any new name) and non-empty data
    returns the failure status -1 and leaves the whole disk — in particular
    every root-directory sector — unchanged: the failing allocation happens
    before any FAT, data or directory write. -/
theorem write_file_disk_full_no_mutation (d : Disk) (name data : List Nat)
    (hfull : fat_find_free_cluster d = none)
    (hnew : (scanDir d (make_dos_name name)).2 < 2)
    (hdata : data ≠ []) :
    fat16_write_file d name data = (-1, d) := by
  rcases hscan : scanDir d (make_dos_name name) with ⟨found, existing⟩
  rw [hscan] at hnew
  have hex : existing < 2 := hnew
  rw [fat16_write_file, hscan]
  dsimp only
  rw [if_neg (show ¬ 2 ≤ existing by omega)]
  rcases data with - | ⟨b, rest⟩
  · exact absurd rfl hdata
  · rw [if_neg (show ¬ (b :: rest).length = 0 by simp)]
    simp only [List.length_cons]
    rw [allocWrite_full (b :: rest) d rest.length hfull]

/-- a disk whose FAT area is saturated: every byte of sectors 1..8 is 0xFF,
    so every data cluster's entry reads 0xFFFF (used); the root directory is
    all zero. -/
def fatFullDisk : Disk := fun s => if 1 ≤ s ∧ s ≤ 8 then (fun _ => 0xFF) else zeroSector

set_option maxRecDepth 10000 in
/-- Witness for C6: writing the 1-byte file "x" on the saturated volume
    fails with -1 and changes nothing. -/
theorem write_file_disk_full_witness :
    fat16_write_file fatFullDisk [120] [1] = (-1, fatFullDisk) :=
  write_file_disk_full_no_mutation fatFullDisk [120] [1] (by decide) (by decide) (by decide)

/- ===================== claim C9 ===================== -/

/-- loop invariant of the chain walk: the byte count never exceeds `toread`
    (it only grows by `min SECTOR_SIZE (toread - got)` while `got < toread`),
    and the returned list holds exactly the counted bytes. -/
lemma readChain_bound (d : Disk) (toread : Nat) :
    ∀ fuel c got, got ≤ toread →
      got ≤ (readChain d toread fuel c got).1 ∧
      (readChain d toread fuel c got).1 ≤ toread ∧
      (readChain d toread fuel c got).2.length = (readChain d toread fuel c got).1 - got := by
  intro fuel
  induction fuel with
  | zero =>
    intro c got h
    exact ⟨Nat.le_refl _, h, by simp [readChain]⟩
  | succ k ih =>
    intro c got h
    rw [readChain]
    by_cases hc : 2 ≤ c ∧ got < toread
    · rw [if_pos hc]
      dsimp only
      have hcopy : min SECTOR_SIZE (toread - got) ≤ toread - got := Nat.min_le_right _ _
      by_cases hnext : 0xFFF8 ≤ fat_get_entry d c
      · rw [if_pos hnext]
        refine ⟨Nat.le_add_right _ _, by omega, ?_⟩
        simp
      · rw [if_neg hnext]
        have hrec := ih (fat_get_entry d c) (got + min SECTOR_SIZE (toread - got)) (by omega)
        rcases hre : readChain d toread k (fat_get_entry d c)
            (got + min SECTOR_SIZE (toread - got)) with ⟨g, rest⟩
        rw [hre] at hrec
        dsimp only at hrec
        refine ⟨by omega, by omega, ?_⟩
        dsimp only
        simp [List.length_append]
        omega
    · rw [if_neg hc]
      exact ⟨Nat.le_refl _, h, by simp⟩

/-- Claim C9: whenever fat16_read_file succeeds it returns at most `maxlen`
    bytes — both the byte count and the returned byte list are bounded by
    `maxlen`, and the count never exceeds the size recorded in the matched
    directory entry — for every disk state, including corrupt size fields
    and malformed cluster chains. -/
theorem read_file_bounded (d : Disk) (name : List Nat) (maxlen got : Nat) (out : List Nat)
    (h : fat16_read_file d name maxlen = some (got, out)) :
    got ≤ maxlen ∧ out.length = got ∧
    (∀ st sz, readFind d (make_dos_name name) = some (st, sz) → got ≤ sz) := by
  rw [fat16_read_file] at h
  rcases hf : readFind d (make_dos_name name) with - | ⟨st, sz⟩
  · rw [hf] at h
    exact absurd h (by simp)
  · rw [hf] at h
    dsimp only at h
    by_cases hsz : sz = 0
    · rw [if_pos hsz] at h
      have hpair : (0, ([] : List Nat)) = (got, out) := by
        injection h
      have hg : got = 0 := by
        have := congrArg Prod.fst hpair
        simpa using this.symm
      have ho : out = [] := by
        have := congrArg Prod.snd hpair
        simpa using this.symm
      subst hg
      subst ho
      refine ⟨Nat.zero_le _, rfl, ?_⟩
      intro st' sz' h'
      exact Nat.zero_le _
    · rw [if_neg hsz] at h
      have hcg : readChain d (min sz maxlen) (min sz maxlen) st 0 = (got, out) := by
        injection h
      have hb := readChain_bound d (min sz maxlen) (min sz maxlen) st 0 (Nat.zero_le _)
      rw [hcg] at hb
      dsimp only at hb
      obtain ⟨hb1, hb2, hb3⟩ := hb
      refine ⟨Nat.le_trans hb2 (Nat.min_le_right _ _), by omega, ?_⟩
      intro st' sz' h'
      injection h' with hp
      injection hp with hst hsz2
      have := Nat.le_trans hb2 (Nat.min_le_left sz maxlen)
      omega

/-- a small disk holding one file "A          " of size 3 starting at
    cluster 2 (FAT entry 2 = end-of-chain), with data bytes 10, 20, 30. -/
def c9Disk : Disk := fun s =>
  if s = 9 then
    (fun i => if i = 0 then 65 else if 1 ≤ i ∧ i < 11 then 32
      else if i = 26 then 2 else if i = 28 then 3 else 0)
  else if s = 1 then (fun i => if i = 4 then 0xFF else if i = 5 then 0xFF else 0)
  else if s = 41 then (fun i => if i = 0 then 10 else if i = 1 then 20 else if i = 2 then 30 else 0)
  else zeroSector

/-- Witness for C9: reading the 3-byte file "a" with maxlen 2 returns
    exactly 2 bytes. -/
theorem read_file_bounded_witness :
    2 ≤ 2 ∧ ([10, 20] : List Nat).length = 2 ∧
    (∀ st sz, readFind c9Disk (make_dos_name [97]) = some (st, sz) → 2 ≤ sz) :=
  read_file_bounded c9Disk [97] 2 2 [10, 20] (by decide)

/- ===================== claim C8 ===================== -/

/-- pointwise description of the volume-zeroing loop. -/
lemma zeroAll_apply (d : Disk) :
    ∀ n, n ≤ TOTAL_SECTORS → ∀ s i, zeroAll d n s i = if s < n then 0 else d s i := by
  intro n
  induction n with
  | zero => intro _ s i; rw [zeroAll, if_neg (by omega)]
  | succ k ih =>
    intro h s i
    rw [zeroAll, write_sector_apply, ih (by omega) s i]
    by_cases h1 : s = k
    · subst h1
      rw [if_pos ⟨by omega, rfl⟩, if_pos (by omega)]
      rfl
    · rw [if_neg (fun hc => h1 hc.2)]
      split_ifs <;> first | rfl | omega

/-- pointwise description of the FAT-seeding loop. -/
lemma initFats_apply (d : Disk) :
    ∀ n, n ≤ SECTORS_PER_FAT → ∀ s i,
      initFats d n s i =
        if first_fat_sector ≤ s ∧ s < first_fat_sector + n ∨
           first_fat_sector + SECTORS_PER_FAT ≤ s ∧ s < first_fat_sector + SECTORS_PER_FAT + n then
          (if s = first_fat_sector ∨ s = first_fat_sector + SECTORS_PER_FAT then fatSector0 i
           else 0)
        else d s i := by
  have hFF : first_fat_sector = 1 := rfl
  have hSPF : SECTORS_PER_FAT = 4 := rfl
  have hT : TOTAL_SECTORS = 512 := rfl
  intro n
  induction n with
  | zero => intro _ s i; rw [initFats, if_neg (by omega)]
  | succ k ih =>
    intro h s i
    rw [initFats]
    rw [write_sector_apply, write_sector_apply, ih (by omega) s i]
    simp only [apply_ite (fun f : Sector => f i), zeroSector]
    split_ifs <;> first | rfl | omega

/-- pointwise description of fat16_init: boot sector at 0, the seeded FAT
    sector at 1 and 5, all other in-range sectors zero. -/
lemma fat16_init_apply (d : Disk) (s i : Nat) :
    fat16_init d s i =
      if s = 0 then bpbSector i
      else if s = 1 ∨ s = 5 then fatSector0 i
      else if s < TOTAL_SECTORS then 0
      else d s i := by
  have hFF : first_fat_sector = 1 := rfl
  have hSPF : SECTORS_PER_FAT = 4 := rfl
  have hT : TOTAL_SECTORS = 512 := rfl
  rw [fat16_init, initFats_apply _ SECTORS_PER_FAT (Nat.le_refl _) s i, write_sector_apply,
    zeroAll_apply d TOTAL_SECTORS (Nat.le_refl _) s i]
  split_ifs <;> first | rfl | omega

/-- every in-range sector of a freshly formatted volume other than 0, 1 and 5
    is all zero. -/
lemma fat16_init_other (d : Disk) (s i : Nat) (h0 : s ≠ 0) (h1 : s ≠ 1) (h5 : s ≠ 5)
    (hlt : s < TOTAL_SECTORS) : fat16_init d s i = 0 := by
  rw [fat16_init_apply, if_neg h0, if_neg (by rintro (h | h) <;> [exact h1 h; exact h5 h]),
    if_pos hlt]

/-- fat16_write_file's directory scan over sectors whose first entry byte is
    0: the first sector visited supplies the free-slot offset and the scan
    reports no existing entry. -/
lemma scanDirFrom_all_zero (d : Disk) (dn : List Nat)
    (hz : ∀ s', s' < root_dir_sectors → read_sector d (root_start + s') 0 = 0) :
    ∀ fuel s cand, 1 ≤ fuel → s + fuel ≤ root_dir_sectors →
      scanDirFrom d dn fuel s cand = ((cand <|> some (s * SECTOR_SIZE)), 0) := by
  intro fuel
  induction fuel with
  | zero => intro s cand h; omega
  | succ k ih =>
    intro s cand _ h2
    rw [scanDirFrom]
    have hb : read_sector d (root_start + s) 0 = 0 := hz s (by omega)
    rw [scanEntries]
    rw [hb, if_pos rfl]
    dsimp only
    rcases Nat.eq_zero_or_pos k with hk | hk
    · subst hk
      rw [scanDirFrom]
      simp
    · rw [ih (s + 1) _ (by omega) (by omega)]
      cases cand <;> simp

/-- on a freshly formatted volume the write scan finds the free slot at
    offset 0 and no existing entry. -/
lemma scanDir_init (d : Disk) (dn : List Nat) :
    scanDir (fat16_init d) dn = (some 0, 0) := by
  have hz : ∀ s', s' < root_dir_sectors →
      read_sector (fat16_init d) (root_start + s') 0 = 0 := by
    intro s' hs'
    have e1 : root_start = 9 := rfl
    have e2 : root_dir_sectors = 32 := rfl
    have e3 : TOTAL_SECTORS = 512 := rfl
    rw [read_sector_apply _ _ _ (by omega)]
    exact fat16_init_other d _ 0 (by omega) (by omega) (by omega) (by omega)
  rw [scanDir, scanDirFrom_all_zero (fat16_init d) dn hz root_dir_sectors 0 none
    (by decide) (by omega)]
  simp

/-- the root-directory sector produced by writing the empty file "a.txt" at
    slot 0 of a freshly formatted volume: name bytes "A       TXT",
    attribute 0x20, every other byte (including cluster 26/27 and size
    28..31) zero. -/
def dirSecA : Sector := fun j =>
  if j = 0 then 65
  else if 1 ≤ j ∧ j < 8 then 32
  else if j = 8 then 84
  else if j = 9 then 88
  else if j = 10 then 84
  else if j = 11 then 0x20
  else 0

lemma updateBytes_cons (s : Sector) (p : Nat × Nat) (t : List (Nat × Nat)) (j : Nat) :
    updateBytes s (p :: t) j = updateBytes (updateByte s p.1 p.2) t j := rfl

/-- a byte position touched by none of the stores is left as in the base
    sector. -/
lemma updateBytes_apply_notin : ∀ (l : List (Nat × Nat)) (s : Sector) (j : Nat),
    (∀ q ∈ l, q.1 ≠ j) → updateBytes s l j = s j := by
  intro l
  induction l with
  | nil => intro s j _; rfl
  | cons p t ih =>
    intro s j h
    rw [updateBytes_cons, ih _ _ (fun q hq => h q (List.mem_cons_of_mem p hq)),
      updateByte_apply, if_neg (fun he => h p (List.mem_cons_self p t) he.symm)]

set_option maxRecDepth 4000 in
set_option maxHeartbeats 1000000 in
/-- Claim C8: writing "a.txt" with empty data on a freshly formatted volume
    succeeds, allocates no clusters (the whole FAT area, sectors 1..8, is
    byte-for-byte unchanged), creates a directory entry whose
    starting-cluster bytes (26/27) and size bytes (28..31) are all 0, and a
    subsequent fat16_read_file of that name returns 0 bytes (empty content)
    for every maxlen, without walking any chain: the size-0 early return
    fires regardless of the FAT and data areas. -/
theorem write_empty_file_entry_zero (d : Disk) (maxlen : Nat) :
    (fat16_write_file (fat16_init d) [97, 46, 116, 120, 116] []).1 = 0 ∧
    (∀ k, 26 ≤ k → k ≤ 31 →
      (fat16_write_file (fat16_init d) [97, 46, 116, 120, 116] []).2 9 k = 0) ∧
    (∀ s i, 1 ≤ s → s ≤ 8 →
      (fat16_write_file (fat16_init d) [97, 46, 116, 120, 116] []).2 s i =
        fat16_init d s i) ∧
    fat16_read_file (fat16_write_file (fat16_init d) [97, 46, 116, 120, 116] []).2
      [97, 46, 116, 120, 116] maxlen = some (0, []) := by
  have hdn : make_dos_name [97, 46, 116, 120, 116] =
      [65, 32, 32, 32, 32, 32, 32, 32, 84, 88, 84] := by decide
  have hw : fat16_write_file (fat16_init d) [97, 46, 116, 120, 116] [] =
      (0, dirUpdate (fat16_init d) 0 [65, 32, 32, 32, 32, 32, 32, 32, 84, 88, 84] 0 0) := by
    rw [fat16_write_file]
    rw [scanDir_init]
    dsimp only
    rw [if_neg (show ¬ 2 ≤ 0 by omega), if_pos (show List.length ([] : List Nat) = 0 from rfl),
      hdn]
  have hbase : ∀ i2, read_sector (fat16_init d) (root_start + 0 / SECTOR_SIZE) i2 = 0 := by
    intro i2
    rw [read_sector_apply _ _ _ (by decide)]
    exact fat16_init_other d _ i2 (by decide) (by decide) (by decide) (by decide)
  have hsec : ∀ j,
      dirUpdate (fat16_init d) 0 [65, 32, 32, 32, 32, 32, 32, 32, 84, 88, 84] 0 0 9 j =
        dirSecA j := by
    intro j
    rw [dirUpdate]
    rw [write_sector_apply, if_pos ⟨by decide, by decide⟩,
      show (0 : Nat) % SECTOR_SIZE = 0 from rfl,
      show dirEntryUpds 0 [65, 32, 32, 32, 32, 32, 32, 32, 84, 88, 84] 0 0 =
        [(0, 65), (1, 32), (2, 32), (3, 32), (4, 32), (5, 32), (6, 32), (7, 32),
         (8, 84), (9, 88), (10, 84), (11, 0x20), (12, 0), (13, 0), (14, 0), (15, 0),
         (16, 0), (17, 0), (26, 0), (27, 0), (28, 0), (29, 0), (30, 0), (31, 0)] from by decide]
    rcases Nat.lt_or_ge j 32 with hj | hj
    · interval_cases j <;> rfl
    · rw [updateBytes_apply_notin _ _ _ (by intro q hq; fin_cases hq <;> simp <;> omega),
        hbase j]
      simp only [dirSecA]
      split_ifs <;> first | rfl | omega
  have hunch : ∀ s i, s ≠ 9 →
      dirUpdate (fat16_init d) 0 [65, 32, 32, 32, 32, 32, 32, 32, 84, 88, 84] 0 0 s i =
        fat16_init d s i := by
    intro s i hs
    rw [dirUpdate]
    rw [write_sector_apply,
      if_neg (fun hc => hs (hc.2.trans (show root_start + 0 / SECTOR_SIZE = 9 from rfl)))]
  have hrs : ∀ j,
      read_sector (dirUpdate (fat16_init d) 0 [65, 32, 32, 32, 32, 32, 32, 32, 84, 88, 84] 0 0)
        9 j = dirSecA j := by
    intro j
    rw [read_sector_apply _ _ _ (by decide)]
    exact hsec j
  have hscanE : readScanEntries
      (read_sector (dirUpdate (fat16_init d) 0 [65, 32, 32, 32, 32, 32, 32, 32, 84, 88, 84] 0 0) 9)
      [65, 32, 32, 32, 32, 32, 32, 32, 84, 88, 84] 16 0 = some (0, 0) := by
    rw [readScanEntries]
    norm_num [hrs, entryMatches, dirSecA, List.getD_cons_zero, List.getD_cons_succ]
  have hfind : readFind
      (dirUpdate (fat16_init d) 0 [65, 32, 32, 32, 32, 32, 32, 32, 84, 88, 84] 0 0)
      [65, 32, 32, 32, 32, 32, 32, 32, 84, 88, 84] = some (0, 0) := by
    rw [readFind, show root_dir_sectors = 32 from rfl, readFindFrom,
      show root_start + 0 = 9 from rfl, hscanE]
  refine ⟨?_, ?_, ?_, ?_⟩
  · rw [hw]
  · intro k h26 h31
    rw [hw]
    dsimp only
    rw [hsec k]
    rw [show dirSecA k = (if k = 0 then 65
      else if 1 ≤ k ∧ k < 8 then 32
      else if k = 8 then 84
      else if k = 9 then 88
      else if k = 10 then 84
      else if k = 11 then 0x20
      else 0) from rfl]
    split_ifs <;> first | rfl | omega
  · intro s i h1 h8
    rw [hw]
    dsimp only
    exact hunch s i (by omega)
  · rw [hw]
    dsimp only
    rw [fat16_read_file]
    dsimp only
    rw [hdn, hfind]
    rfl

/- claim C8 has no Prop hypothesis (its binders are a disk and a length),
   but we record a closed instance anyway. -/
theorem write_empty_file_entry_zero_instance :
    (fat16_write_file (fat16_init czero) [97, 46, 116, 120, 116] []).1 = 0 ∧
    fat16_read_file (fat16_write_file (fat16_init czero) [97, 46, 116, 120, 116] []).2
      [97, 46, 116, 120, 116] 5 = some (0, []) :=
  ⟨(write_empty_file_entry_zero czero 5).1, (write_empty_file_entry_zero czero 5).2.2.2⟩

/- ===================== claim C2 ===================== -/

/-- both FAT copies (sectors 1..4 and 5..8) are byte-for-byte identical. -/
def fatCopiesEq (d : Disk) : Prop :=
  ∀ s, s < SECTORS_PER_FAT → ∀ i, i < SECTOR_SIZE →
    d (first_fat_sector + s) i = d (first_fat_sector + SECTORS_PER_FAT + s) i

/-- every FAT entry of the addressable range holds either a cluster number
    below 1024 (the 4-sector FAT holds 1024 16-bit entries) or an
    end-of-chain marker; this keeps every fat_set_entry of a chain walk
    inside the FAT area. -/
def chainSafe (d : Disk) : Prop :=
  ∀ c, 2 ≤ c → c < 1024 → fat_get_entry d c < 1024 ∨ 0xFFF8 ≤ fat_get_entry d c

/-- every root-directory entry's recorded starting cluster is below 1024. -/
def dirSafe (d : Disk) : Prop :=
  ∀ s e, s < root_dir_sectors → e < 16 →
    d (root_start + s) (e * 32 + 26) + d (root_start + s) (e * 32 + 27) * 256 < 1024

/-- the inductive invariant: FAT duplication plus the two range conditions
    that make it inductive. -/
def Inv (d : Disk) : Prop := fatCopiesEq d ∧ chainSafe d ∧ dirSafe d

/-- disk states reachable from a freshly formatted volume through the
    filesystem's mutating operation (fat16_read_file performs no write). -/
inductive Reach : Disk → Prop
  | init : ∀ d, Reach (fat16_init d)
  | write : ∀ d name data, Reach d → Reach (fat16_write_file d name data).2

/-- fat_set_entry on a FAT-resident cluster keeps the two FAT copies
    identical: it stores the same two bytes at the same in-sector offsets of
    both copies. -/
lemma fatEq_set (d : Disk) (c v : Nat) (hc : c < 1024) (h : fatCopiesEq d) :
    fatCopiesEq (fat_set_entry d c v) := by
  have hS : SECTOR_SIZE = 512 := rfl
  have hFF : first_fat_sector = 1 := rfl
  have h4 : SECTORS_PER_FAT = 4 := rfl
  intro s hs i hi
  have hmain := h s hs i hi
  rw [fat_set_entry_apply d c v (by omega), fat_set_entry_apply d c v (by omega)]
  simp only [hS, hFF, h4] at hs hi hmain ⊢
  by_cases h1 : 1 + s = 1 + c * 2 / 512
  · have h2 : 1 + 4 + s = 1 + c * 2 / 512 + 4 := by omega
    rw [if_pos (Or.inl h1), if_pos (Or.inr h2)]
    by_cases hi1 : i = c * 2 % 512 + 1
    · rw [if_pos hi1, if_pos hi1]
    · rw [if_neg hi1, if_neg hi1]
      by_cases hi0 : i = c * 2 % 512
      · rw [if_pos hi0, if_pos hi0]
      · rw [if_neg hi0, if_neg hi0]
        exact hmain
  · have h2 : 1 + s ≠ 1 + c * 2 / 512 + 4 := by omega
    have h3 : 1 + 4 + s ≠ 1 + c * 2 / 512 := by omega
    have h5 : 1 + 4 + s ≠ 1 + c * 2 / 512 + 4 := by omega
    rw [if_neg (by rintro (hh | hh) <;> [exact h1 hh; exact h2 hh]),
      if_neg (by rintro (hh | hh) <;> [exact h3 hh; exact h5 hh])]
    exact hmain

/-- reading an entry after fat_set_entry: the written entry reads back the
    written value, every other FAT-resident entry is unchanged. -/
lemma get_set (d : Disk) (c v : Nat) (hc : c < 1024) (hv : v < 65536)
    (x : Nat) (hx : x < 1024) :
    fat_get_entry (fat_set_entry d c v) x = if x = c then v else fat_get_entry d x := by
  have hS : SECTOR_SIZE = 512 := rfl
  have hFF : first_fat_sector = 1 := rfl
  have h4 : SECTORS_PER_FAT = 4 := rfl
  by_cases hxc : x = c
  · subst hxc
    rw [if_pos rfl, fat_get_entry_apply _ x (by omega),
      fat_set_entry_apply d x v (by omega), fat_set_entry_apply d x v (by omega),
      if_pos (Or.inl rfl), if_pos (Or.inl rfl)]
    simp only [hS, hFF, h4, if_true]
    rw [if_neg (show ¬ x * 2 % 512 = x * 2 % 512 + 1 by omega)]
    omega
  · rw [if_neg hxc, fat_get_entry_apply _ x (by omega), fat_get_entry_apply d x (by omega),
      fat_set_entry_apply d c v (by omega), fat_set_entry_apply d c v (by omega)]
    simp only [hS, hFF, h4]
    have hsecne4 : 1 + x * 2 / 512 ≠ 1 + c * 2 / 512 + 4 := by omega
    by_cases hsec : 1 + x * 2 / 512 = 1 + c * 2 / 512
    · rw [if_pos (Or.inl hsec), if_pos (Or.inl hsec)]
      have hoff : x * 2 % 512 ≠ c * 2 % 512 := by omega
      rw [if_neg (show ¬ x * 2 % 512 = c * 2 % 512 + 1 by omega),
        if_neg hoff,
        if_neg (show ¬ x * 2 % 512 + 1 = c * 2 % 512 + 1 by omega),
        if_neg (show ¬ x * 2 % 512 + 1 = c * 2 % 512 by omega),
        hsec]
    · rw [if_neg (by rintro (hh | hh) <;> [exact hsec hh; exact hsecne4 hh]),
        if_neg (by rintro (hh | hh) <;> [exact hsec hh; exact hsecne4 hh])]

/-- fat_set_entry of an in-range value preserves chainSafe when the stored
    value is itself a small cluster number or an end-of-chain marker. -/
lemma chainSafe_set (d : Disk) (c v : Nat) (hc : c < 1024) (hv64 : v < 65536)
    (hv : v < 1024 ∨ 0xFFF8 ≤ v) (h : chainSafe d) : chainSafe (fat_set_entry d c v) := by
  intro x hx2 hx
  rw [get_set d c v hc hv64 x hx]
  by_cases hxc : x = c
  · rw [if_pos hxc]
    exact hv
  · rw [if_neg hxc]
    exact h x hx2 hx

/-- fat_set_entry on a FAT-resident cluster touches only sectors 1..8, so
    the directory area is unchanged. -/
lemma dirSafe_set (d : Disk) (c v : Nat) (hc : c < 1024) (h : dirSafe d) :
    dirSafe (fat_set_entry d c v) := by
  have hS : SECTOR_SIZE = 512 := rfl
  have hFF : first_fat_sector = 1 := rfl
  have h4 : SECTORS_PER_FAT = 4 := rfl
  have hRS : root_start = 9 := rfl
  intro s e hs he
  have hmain := h s e hs he
  rw [fat_set_entry_apply d c v (by omega), fat_set_entry_apply d c v (by omega)]
  simp only [hS, hFF, h4, hRS] at hs he hmain ⊢
  rw [if_neg (by rintro (hh | hh) <;> omega), if_neg (by rintro (hh | hh) <;> omega)]
  exact hmain

/-- writes at sector 9 or beyond leave both FAT copies untouched. -/
lemma fatEq_write_high (d : Disk) (sec : Nat) (b : Sector) (h9 : 9 ≤ sec)
    (h : fatCopiesEq d) : fatCopiesEq (write_sector d sec b) := by
  have hFF : first_fat_sector = 1 := rfl
  have h4 : SECTORS_PER_FAT = 4 := rfl
  intro s hs i hi
  have hmain := h s hs i hi
  rw [write_sector_apply, write_sector_apply]
  simp only [hFF, h4] at hs hmain ⊢
  rw [if_neg (by rintro ⟨-, hh⟩; omega), if_neg (by rintro ⟨-, hh⟩; omega)]
  exact hmain

/-- writes at sector 5 or beyond do not change any fat_get_entry value
    (the copy-0 FAT sectors are 1..4). -/
lemma get_write_high (d : Disk) (sec : Nat) (b : Sector) (h5 : 5 ≤ sec)
    (x : Nat) (hx : x < 1024) : fat_get_entry (write_sector d sec b) x = fat_get_entry d x := by
  have hS : SECTOR_SIZE = 512 := rfl
  have hFF : first_fat_sector = 1 := rfl
  rw [fat_get_entry_apply _ x (by omega), fat_get_entry_apply d x (by omega),
    write_sector_apply, write_sector_apply]
  simp only [hS, hFF]
  rw [if_neg (by rintro ⟨-, hh⟩; omega), if_neg (by rintro ⟨-, hh⟩; omega)]

lemma chainSafe_write_high (d : Disk) (sec : Nat) (b : Sector) (h5 : 5 ≤ sec)
    (h : chainSafe d) : chainSafe (write_sector d sec b) := by
  intro x hx2 hx
  rw [get_write_high d sec b h5 x hx]
  exact h x hx2 hx

/-- writes in the data area (sector 41 and beyond) leave the directory area
    untouched. -/
lemma dirSafe_write_data (d : Disk) (sec : Nat) (b : Sector)
    (h41 : first_data_sector ≤ sec) (h : dirSafe d) : dirSafe (write_sector d sec b) := by
  have hFD : first_data_sector = 41 := rfl
  have hRS : root_start = 9 := rfl
  have hRD : root_dir_sectors = 32 := rfl
  intro s e hs he
  have hmain := h s e hs he
  rw [write_sector_apply, write_sector_apply]
  simp only [hFD, hRS, hRD] at hs hmain h41 ⊢
  rw [if_neg (by rintro ⟨-, hh⟩; omega), if_neg (by rintro ⟨-, hh⟩; omega)]
  exact hmain

/-- the free-cluster scan only returns clusters in the data-cluster range. -/
lemma findFreeFrom_bounds (d : Disk) :
    ∀ count c0 c, findFreeFrom d c0 count = some c → c0 ≤ c ∧ c < c0 + count := by
  intro count
  induction count with
  | zero => intro c0 c h; simp [findFreeFrom] at h
  | succ n ih =>
    intro c0 c h
    rw [findFreeFrom] at h
    by_cases h0 : fat_get_entry d c0 = 0
    · rw [if_pos h0] at h
      injection h with h
      omega
    · rw [if_neg h0] at h
      have := ih (c0 + 1) c h
      omega

lemma findFree_bounds (d : Disk) (c : Nat) (h : fat_find_free_cluster d = some c) :
    2 ≤ c ∧ c < 473 := by
  have := findFreeFrom_bounds d ((TOTAL_SECTORS - first_data_sector) / SECTORS_PER_CLUSTER)
    2 c h
  have he : (TOTAL_SECTORS - first_data_sector) / SECTORS_PER_CLUSTER = 471 := rfl
  omega

/-- a match reported by the entry loop lies 32-aligned in the scanned range
    and carries the 16-bit starting-cluster field of that entry. -/
lemma scanEntries_matched (sec : Sector) (dn : List Nat) (sbase : Nat) :
    ∀ fuel off p cl, scanEntries sec dn sbase fuel off = .matched p cl →
      ∃ k, k < fuel ∧ p = sbase + off + 32 * k ∧
        cl = sec (off + 32 * k + 26) + sec (off + 32 * k + 27) * 256 := by
  intro fuel
  induction fuel with
  | zero => intro off p cl h; simp [scanEntries] at h
  | succ n ih =>
    intro off p cl h
    rw [scanEntries] at h
    by_cases h0 : sec off = 0
    · rw [if_pos h0] at h
      simp at h
    · rw [if_neg h0] at h
      by_cases hE : sec off = 0xE5
      · rw [if_pos hE] at h
        rcases hrec : scanEntries sec dn sbase n (off + 32) with ⟨p', cl'⟩ | c'
        · rw [hrec] at h
          injection h with h1 h2
          obtain ⟨k, hk, hp, hcl⟩ := ih (off + 32) _ _ hrec
          refine ⟨k + 1, by omega, by omega, ?_⟩
          rw [← h2, hcl]
          have e1 : off + 32 + 32 * k + 26 = off + 32 * (k + 1) + 26 := by ring
          have e2 : off + 32 + 32 * k + 27 = off + 32 * (k + 1) + 27 := by ring
          rw [e1, e2]
        · rw [hrec] at h
          simp at h
      · rw [if_neg hE] at h
        by_cases hM : entryMatches sec off dn = true
        · rw [if_pos hM] at h
          injection h with h1 h2
          exact ⟨0, by omega, by omega, by rw [← h2]⟩
        · rw [if_neg hM] at h
          obtain ⟨k, hk, hp, hcl⟩ := ih (off + 32) _ _ h
          refine ⟨k + 1, by omega, by omega, ?_⟩
          rw [hcl]
          have e1 : off + 32 + 32 * k + 26 = off + 32 * (k + 1) + 26 := by ring
          have e2 : off + 32 + 32 * k + 27 = off + 32 * (k + 1) + 27 := by ring
          rw [e1, e2]

/-- a free-slot candidate reported by the entry loop lies 32-aligned in the
    scanned range. -/
lemma scanEntries_noMatch (sec : Sector) (dn : List Nat) (sbase : Nat) :
    ∀ fuel off c', scanEntries sec dn sbase fuel off = .noMatch (some c') →
      ∃ k, k < fuel ∧ c' = sbase + off + 32 * k := by
  intro fuel
  induction fuel with
  | zero => intro off c' h; simp [scanEntries] at h
  | succ n ih =>
    intro off c' h
    rw [scanEntries] at h
    by_cases h0 : sec off = 0
    · rw [if_pos h0] at h
      injection h with h1
      injection h1 with h1
      exact ⟨0, by omega, by omega⟩
    · rw [if_neg h0] at h
      by_cases hE : sec off = 0xE5
      · rw [if_pos hE] at h
        rcases hrec : scanEntries sec dn sbase n (off + 32) with ⟨p', cl'⟩ | c''
        · rw [hrec] at h
          simp at h
        · rw [hrec] at h
          injection h with h1
          injection h1 with h1
          exact ⟨0, by omega, by omega⟩
      · rw [if_neg hE] at h
        by_cases hM : entryMatches sec off dn = true
        · rw [if_pos hM] at h
          simp at h
        · rw [if_neg hM] at h
          obtain ⟨k, hk, hc⟩ := ih (off + 32) c' h
          exact ⟨k + 1, by omega, by omega⟩

/-- the directory scan of fat16_write_file reports an existing starting
    cluster below 1024 (on a dirSafe disk) and a 32-aligned found offset
    below 16384. -/
lemma scanDirFrom_inv (d : Disk) (dn : List Nat) (hdir : dirSafe d) :
    ∀ fuel s cand, s + fuel ≤ root_dir_sectors →
      (∀ x, cand = some x → x < 16384 ∧ x % 32 = 0) →
      (scanDirFrom d dn fuel s cand).2 < 1024 ∧
      ∀ y, (scanDirFrom d dn fuel s cand).1 = some y → y < 16384 ∧ y % 32 = 0 := by
  have hRD : root_dir_sectors = 32 := rfl
  have hRS : root_start = 9 := rfl
  have hT : TOTAL_SECTORS = 512 := rfl
  have hS : SECTOR_SIZE = 512 := rfl
  intro fuel
  induction fuel with
  | zero =>
    intro s cand _ hcand
    rw [scanDirFrom]
    refine ⟨by show (0 : Nat) < 1024; omega, fun y hy => hcand y hy⟩
  | succ n ih =>
    intro s cand hs hcand
    rw [scanDirFrom]
    rcases hse : scanEntries (read_sector d (root_start + s)) dn (s * SECTOR_SIZE) 16 0
      with ⟨p, cl⟩ | c'
    ·
      obtain ⟨k, hk, hp, hcl⟩ := scanEntries_matched _ dn _ 16 0 p cl hse
      constructor
      · show cl < 1024
        rw [hcl]
        have hrd : read_sector d (root_start + s) = d (root_start + s) := by
          rw [read_sector, if_neg (by omega)]
        rw [hrd]
        have := hdir s k (by omega) (by omega)
        have e1 : 0 + 32 * k + 26 = k * 32 + 26 := by ring
        have e2 : 0 + 32 * k + 27 = k * 32 + 27 := by ring
        rw [e1, e2]
        exact this
      · intro y hy
        show _ ∧ _
        injection hy with hy
        subst hy
        constructor
        · show p < 16384
          rw [hp, hS]
          omega
        · show p % 32 = 0
          rw [hp, hS]
          omega
    · apply ih (s + 1) (cand <|> c') (by omega)
      intro x hx
      rcases hcv : cand with - | a
      · rw [hcv] at hx
        simp only [Option.none_orElse] at hx
        rcases hcv2 : c' with - | b
        · rw [hcv2] at hx
          simp at hx
        · rw [hcv2] at hx
          injection hx with hx
          subst hx
          obtain ⟨k, hk, hb⟩ := scanEntries_noMatch _ dn _ 16 0 b (hcv2 ▸ hse)
          rw [hb, hS]
          constructor
          · omega
          · omega
      · rw [hcv] at hx
        simp only [Option.some_orElse] at hx
        exact hcand x (hcv ▸ hx)

lemma scanDir_inv (d : Disk) (dn : List Nat) (hdir : dirSafe d) :
    (scanDir d dn).2 < 1024 ∧
    ∀ y, (scanDir d dn).1 = some y → y < 16384 ∧ y % 32 = 0 := by
  rw [scanDir]
  exact scanDirFrom_inv d dn hdir root_dir_sectors 0 none (by omega) (by intro x hx; cases hx)

/-- the chain-freeing loop preserves the invariant: every entry it zeroes is
    FAT-resident (by chainSafe) and zeroing preserves all three parts. -/
lemma freeChain_Inv : ∀ fuel (d : Disk) (c : Nat), Inv d → c < 1024 →
    Inv (freeChain d c fuel) := by
  intro fuel
  induction fuel with
  | zero => intro d c h _; exact h
  | succ n ih =>
    intro d c h hc
    rw [freeChain]
    by_cases hg : 2 ≤ c ∧ c < 0xFFF8
    · rw [if_pos hg]
      have hInv2 : Inv (fat_set_entry d c 0) :=
        ⟨fatEq_set d c 0 hc h.1, chainSafe_set d c 0 hc (by omega) (Or.inl (by omega)) h.2.1,
         dirSafe_set d c 0 hc h.2.2⟩
      by_cases hnext : 0xFFF8 ≤ fat_get_entry d c
      · rw [if_pos hnext]
        exact hInv2
      · rw [if_neg hnext]
        rcases h.2.1 c hg.1 hc with hlt | hge
        · exact ih _ _ hInv2 hlt
        · exact absurd hge hnext
    · rw [if_neg hg]
      exact h

lemma updateBytes_append (s : Sector) (l1 l2 : List (Nat × Nat)) (j : Nat) :
    updateBytes s (l1 ++ l2) j = updateBytes (updateBytes s l1) l2 j := by
  rw [updateBytes, updateBytes, updateBytes, List.foldl_append]

/-- the starting-cluster low byte stored by the directory update. -/
lemma dirEntryUpds_byte26 (s : Sector) (o : Nat) (dn : List Nat) (f l : Nat) :
    updateBytes s (dirEntryUpds o dn f l) (o + 26) = f % 256 := by
  rw [show dirEntryUpds o dn f l =
      [(o + 0, dn.getD 0 0), (o + 1, dn.getD 1 0), (o + 2, dn.getD 2 0),
       (o + 3, dn.getD 3 0), (o + 4, dn.getD 4 0), (o + 5, dn.getD 5 0),
       (o + 6, dn.getD 6 0), (o + 7, dn.getD 7 0), (o + 8, dn.getD 8 0),
       (o + 9, dn.getD 9 0), (o + 10, dn.getD 10 0),
       (o + 11, 0x20), (o + 12, 0), (o + 13, 0), (o + 14, 0), (o + 15, 0),
       (o + 16, 0), (o + 17, 0)] ++ (o + 26, f % 256) ::
      [(o + 27, f / 256 % 256), (o + 28, l % 256), (o + 29, l / 256 % 256),
       (o + 30, l / 65536 % 256), (o + 31, l / 16777216 % 256)] from rfl,
    updateBytes_append,
    show ∀ s2 : Sector, updateBytes s2 ((o + 26, f % 256) ::
      [(o + 27, f / 256 % 256), (o + 28, l % 256), (o + 29, l / 256 % 256),
       (o + 30, l / 65536 % 256), (o + 31, l / 16777216 % 256)]) (o + 26) =
      updateBytes (updateByte s2 (o + 26) (f % 256))
        [(o + 27, f / 256 % 256), (o + 28, l % 256), (o + 29, l / 256 % 256),
         (o + 30, l / 65536 % 256), (o + 31, l / 16777216 % 256)] (o + 26)
      from fun _ => rfl,
    updateBytes_apply_notin _ _ _ (by intro q hq; fin_cases hq <;> simp),
    updateByte_apply, if_pos rfl]

/-- the starting-cluster high byte stored by the directory update. -/
lemma dirEntryUpds_byte27 (s : Sector) (o : Nat) (dn : List Nat) (f l : Nat) :
    updateBytes s (dirEntryUpds o dn f l) (o + 27) = f / 256 % 256 := by
  rw [show dirEntryUpds o dn f l =
      [(o + 0, dn.getD 0 0), (o + 1, dn.getD 1 0), (o + 2, dn.getD 2 0),
       (o + 3, dn.getD 3 0), (o + 4, dn.getD 4 0), (o + 5, dn.getD 5 0),
       (o + 6, dn.getD 6 0), (o + 7, dn.getD 7 0), (o + 8, dn.getD 8 0),
       (o + 9, dn.getD 9 0), (o + 10, dn.getD 10 0),
       (o + 11, 0x20), (o + 12, 0), (o + 13, 0), (o + 14, 0), (o + 15, 0),
       (o + 16, 0), (o + 17, 0), (o + 26, f % 256)] ++ (o + 27, f / 256 % 256) ::
      [(o + 28, l % 256), (o + 29, l / 256 % 256),
       (o + 30, l / 65536 % 256), (o + 31, l / 16777216 % 256)] from rfl,
    updateBytes_append,
    show ∀ s2 : Sector, updateBytes s2 ((o + 27, f / 256 % 256) ::
      [(o + 28, l % 256), (o + 29, l / 256 % 256),
       (o + 30, l / 65536 % 256), (o + 31, l / 16777216 % 256)]) (o + 27) =
      updateBytes (updateByte s2 (o + 27) (f / 256 % 256))
        [(o + 28, l % 256), (o + 29, l / 256 % 256),
         (o + 30, l / 65536 % 256), (o + 31, l / 16777216 % 256)] (o + 27)
      from fun _ => rfl,
    updateBytes_apply_notin _ _ _ (by intro q hq; fin_cases hq <;> simp),
    updateByte_apply, if_pos rfl]

/-- a byte position outside the updated 32-byte slot is untouched by the
    directory update's stores. -/
lemma dirEntryUpds_notin (s : Sector) (o : Nat) (dn : List Nat) (f l p : Nat)
    (hp : ∀ k, k ≤ 31 → p ≠ o + k) :
    updateBytes s (dirEntryUpds o dn f l) p = s p := by
  apply updateBytes_apply_notin
  intro q hq
  fin_cases hq <;> exact fun he => hp _ (by omega) he.symm

/-- the directory update preserves dirSafe: the updated slot records the
    (small) first cluster of the new chain, all other slots keep their
    bytes. -/
lemma dirSafe_dirUpdate (d : Disk) (off : Nat) (dn : List Nat) (fC len : Nat)
    (hoff : off < 16384) (hal : off % 32 = 0) (hfc : fC < 1024) (h : dirSafe d) :
    dirSafe (dirUpdate d off dn fC len) := by
  have hRS : root_start = 9 := rfl
  have hRD : root_dir_sectors = 32 := rfl
  have hT : TOTAL_SECTORS = 512 := rfl
  have hS : SECTOR_SIZE = 512 := rfl
  have hsec512 : root_start + off / SECTOR_SIZE < TOTAL_SECTORS := by
    rw [hT, hRS, hS]
    omega
  have halo : off % SECTOR_SIZE % 32 = 0 := by
    rw [hS]
    omega
  intro s e hs he
  have hmain := h s e hs he
  rw [dirUpdate]
  rw [write_sector_apply, write_sector_apply]
  by_cases hsec : root_start + s = root_start + off / SECTOR_SIZE
  · rw [if_pos ⟨hsec512, hsec⟩, if_pos ⟨hsec512, hsec⟩]
    by_cases hslot : e * 32 = off % SECTOR_SIZE
    · rw [show e * 32 + 26 = off % SECTOR_SIZE + 26 by omega,
        show e * 32 + 27 = off % SECTOR_SIZE + 27 by omega,
        dirEntryUpds_byte26, dirEntryUpds_byte27]
      omega
    · rw [dirEntryUpds_notin _ _ _ _ _ _ (by intro k hk; omega),
        dirEntryUpds_notin _ _ _ _ _ _ (by intro k hk; omega),
        read_sector_apply _ _ _ hsec512, read_sector_apply _ _ _ hsec512, ← hsec]
      exact hmain
  · rw [if_neg (fun hc => hsec hc.2), if_neg (fun hc => hsec hc.2)]
    exact hmain

/-- the directory update preserves the whole invariant (it writes one
    directory sector). -/
lemma dirUpdate_Inv (d : Disk) (off : Nat) (dn : List Nat) (fC len : Nat)
    (hoff : off < 16384) (hal : off % 32 = 0) (hfc : fC < 1024) (h : Inv d) :
    Inv (dirUpdate d off dn fC len) := by
  refine ⟨?_, ?_, dirSafe_dirUpdate d off dn fC len hoff hal hfc h.2.2⟩
  · rw [dirUpdate]
    exact fatEq_write_high _ _ _ (by
      show 9 ≤ root_start + off / SECTOR_SIZE
      rw [show root_start = 9 from rfl, show SECTOR_SIZE = 512 from rfl]
      omega) h.1
  · rw [dirUpdate]
    exact chainSafe_write_high _ _ _ (by
      show 5 ≤ root_start + off / SECTOR_SIZE
      rw [show root_start = 9 from rfl, show SECTOR_SIZE = 512 from rfl]
      omega) h.2.1

/-- the allocation loop preserves the invariant; the running first/previous
    cluster trackers stay below 1024. -/
lemma allocWrite_Inv (data : List Nat) :
    ∀ fuel (d : Disk) (pos remaining firstC prevC : Nat),
      Inv d → (firstC = 0 ∨ firstC < 1024) → (prevC = 0 ∨ prevC < 1024) →
      Inv (allocWrite data fuel d pos remaining firstC prevC).2.1 ∧
      ((allocWrite data fuel d pos remaining firstC prevC).2.2.1 = 0 ∨
       (allocWrite data fuel d pos remaining firstC prevC).2.2.1 < 1024) ∧
      ((allocWrite data fuel d pos remaining firstC prevC).2.2.2 = 0 ∨
       (allocWrite data fuel d pos remaining firstC prevC).2.2.2 < 1024) := by
  intro fuel
  induction fuel with
  | zero =>
    intro d pos remaining firstC prevC h hF hP
    exact ⟨h, hF, hP⟩
  | succ n ih =>
    intro d pos remaining firstC prevC h hF hP
    rw [allocWrite]
    by_cases hr : remaining = 0
    · rw [if_pos hr]
      exact ⟨h, hF, hP⟩
    · rw [if_neg hr]
      rcases hff : fat_find_free_cluster d with - | c
      · exact ⟨h, hF, hP⟩
      · have hcb := findFree_bounds d c hff
        have h1 : Inv (if prevC ≠ 0 then fat_set_entry d prevC c else d) := by
          by_cases hp : prevC ≠ 0
          · rw [if_pos hp]
            have hplt : prevC < 1024 := by rcases hP with h' | h' <;> omega
            exact ⟨fatEq_set _ _ _ hplt h.1,
              chainSafe_set _ _ _ hplt (by omega) (Or.inl (by omega)) h.2.1,
              dirSafe_set _ _ _ hplt h.2.2⟩
          · rw [if_neg hp]
            exact h
        have hc41 : first_data_sector ≤ cluster_to_sector c := by
          rw [show cluster_to_sector c = first_data_sector + (c - 2) * SECTORS_PER_CLUSTER
            from rfl]
          omega
        have hc9 : 9 ≤ cluster_to_sector c := by
          rw [show cluster_to_sector c = 41 + (c - 2) * 1 from rfl]
          omega
        have hc5 : 5 ≤ cluster_to_sector c := by omega
        dsimp only
        refine ih _ _ _ _ _
          ⟨fatEq_write_high _ _ _ hc9 h1.1, chainSafe_write_high _ _ _ hc5 h1.2.1,
           dirSafe_write_data _ _ _ hc41 h1.2.2⟩ ?_ (Or.inr (by omega))
        by_cases hf0 : firstC = 0
        · rw [if_pos hf0]
          exact Or.inr (by omega)
        · rw [if_neg hf0]
          rcases hF with h' | h'
          · exact absurd h' hf0
          · exact Or.inr h'

/-- a freshly formatted volume satisfies the invariant: both FAT copies are
    seeded identically, every data-cluster entry is free (0), and the
    directory area is zero. -/
lemma init_Inv (d : Disk) : Inv (fat16_init d) := by
  have hS : SECTOR_SIZE = 512 := rfl
  have hFF : first_fat_sector = 1 := rfl
  have h4 : SECTORS_PER_FAT = 4 := rfl
  have hT : TOTAL_SECTORS = 512 := rfl
  have hRS : root_start = 9 := rfl
  have hRD : root_dir_sectors = 32 := rfl
  refine ⟨?_, ?_, ?_⟩
  · intro s hs i hi
    rw [fat16_init_apply, fat16_init_apply]
    rw [h4] at hs
    rw [hFF, h4, hT]
    split_ifs <;> first | rfl | omega
  · intro c h2 hc
    left
    rw [fat_get_entry_apply _ _ (by omega), fat16_init_apply, fat16_init_apply]
    rw [hFF, hS, hT]
    have hd3 : c * 2 / 512 ≤ 3 := by omega
    by_cases h1 : 1 + c * 2 / 512 = 1
    · rw [h1]
      norm_num
      simp only [fatSector0]
      have hge : 4 ≤ c * 2 % 512 := by omega
      split_ifs <;> first | omega | contradiction
    · have c0 : ¬ (1 + c * 2 / 512 = 0) := by omega
      have c15 : ¬ (1 + c * 2 / 512 = 1 ∨ 1 + c * 2 / 512 = 5) := by
        rintro (hh | hh) <;> omega
      have clt : 1 + c * 2 / 512 < 512 := by omega
      simp only [if_neg c0, if_neg c15, if_pos clt]
      omega
  · intro s e hs he
    rw [fat16_init_apply, fat16_init_apply]
    rw [hRD] at hs
    rw [hRS, hT]
    have c0 : ¬ (9 + s = 0) := by omega
    have c15 : ¬ (9 + s = 1 ∨ 9 + s = 5) := by rintro (hh | hh) <;> omega
    have clt : 9 + s < 512 := by omega
    simp only [if_neg c0, if_neg c15, if_pos clt]
    omega

/-- fat16_write_file preserves the invariant. -/
lemma write_Inv (d : Disk) (name data : List Nat) (h : Inv d) :
    Inv (fat16_write_file d name data).2 := by
  rcases hscan : scanDir d (make_dos_name name) with ⟨found, existing⟩
  have hsc := scanDir_inv d (make_dos_name name) h.2.2
  rw [hscan] at hsc
  have hex : existing < 1024 := hsc.1
  have hfound : ∀ y, found = some y → y < 16384 ∧ y % 32 = 0 := hsc.2
  rw [fat16_write_file, hscan]
  dsimp only
  have h1 : Inv (if 2 ≤ existing then freeChain d existing 0x10000 else d) := by
    by_cases he : 2 ≤ existing
    · rw [if_pos he]
      exact freeChain_Inv 0x10000 d existing h hex
    · rw [if_neg he]
      exact h
  by_cases hlen : data.length = 0
  · rw [if_pos hlen]
    rcases found with - | off
    · exact h1
    · obtain ⟨ho1, ho2⟩ := hfound off rfl
      exact dirUpdate_Inv _ off _ 0 0 ho1 ho2 (by omega) h1
  · rw [if_neg hlen]
    rcases haw : allocWrite data data.length
        (if 2 ≤ existing then freeChain d existing 0x10000 else d) 0 data.length 0 0
      with ⟨ok, d2, fC, pC⟩
    have hAW := allocWrite_Inv data data.length
      (if 2 ≤ existing then freeChain d existing 0x10000 else d) 0 data.length 0 0
      h1 (Or.inl rfl) (Or.inl rfl)
    rw [haw] at hAW
    dsimp only at hAW
    rcases ok
    · exact hAW.1
    · dsimp only
      have h3 : Inv (if pC ≠ 0 then fat_set_entry d2 pC 0xFFFF else d2) := by
        by_cases hp : pC ≠ 0
        · rw [if_pos hp]
          have hplt : pC < 1024 := by rcases hAW.2.2 with h' | h' <;> omega
          exact ⟨fatEq_set _ _ _ hplt hAW.1.1,
            chainSafe_set _ _ _ hplt (by omega) (Or.inr (by omega)) hAW.1.2.1,
            dirSafe_set _ _ _ hplt hAW.1.2.2⟩
        · rw [if_neg hp]
          exact hAW.1
      rcases found with - | off
      · exact h3
      · obtain ⟨ho1, ho2⟩ := hfound off rfl
        have hfc : fC < 1024 := by rcases hAW.2.1 with h' | h' <;> omega
        exact dirUpdate_Inv _ off _ fC data.length ho1 ho2 hfc h3

/-- every reachable disk state satisfies the invariant. -/
lemma reach_Inv : ∀ d : Disk, Reach d → Inv d := by
  intro d h
  induction h with
  | init d => exact init_Inv d
  | write d name data _ ih => exact write_Inv d name data ih

set_option maxRecDepth 4000 in
/-- Claim C2: for every disk state, 16-bit cluster number and value,
    fat_set_entry stores identical bytes for that cluster's entry in both
    FAT copies (same low byte at the entry offset, same high byte at the
    next offset, of the copy-0 sector and of the copy-1 sector); and, more
    generally, starting from the state produced by fat16_init, both FAT
    copies are byte-for-byte identical at every point between operations:
    every reachable state satisfies fatCopiesEq (fat16_read_file mutates
    nothing, so fat16_init and fat16_write_file are the mutating steps). -/
theorem fat_copies_stay_identical :
    (∀ (d : Disk) (c v : Nat), c < 65536 →
      fat_set_entry d c v (first_fat_sector + c * 2 / SECTOR_SIZE) (c * 2 % SECTOR_SIZE) =
        fat_set_entry d c v (first_fat_sector + c * 2 / SECTOR_SIZE + SECTORS_PER_FAT)
          (c * 2 % SECTOR_SIZE) ∧
      fat_set_entry d c v (first_fat_sector + c * 2 / SECTOR_SIZE) (c * 2 % SECTOR_SIZE + 1) =
        fat_set_entry d c v (first_fat_sector + c * 2 / SECTOR_SIZE + SECTORS_PER_FAT)
          (c * 2 % SECTOR_SIZE + 1)) ∧
    (∀ d : Disk, Reach d → fatCopiesEq d) := by
  constructor
  · intro d c v hc
    refine ⟨?_, ?_⟩ <;>
      rw [fat_set_entry_apply d c v hc, fat_set_entry_apply d c v hc,
        if_pos (Or.inl rfl), if_pos (Or.inr rfl)]
    · rw [if_neg (show ¬ c * 2 % SECTOR_SIZE = c * 2 % SECTOR_SIZE + 1 by omega),
        if_neg (show ¬ c * 2 % SECTOR_SIZE = c * 2 % SECTOR_SIZE + 1 by omega),
        if_pos rfl, if_pos rfl]
    · rw [if_pos rfl, if_pos rfl]
  · intro d h
    exact (reach_Inv d h).1

/-- Witness for C2: the per-entry duplication at cluster 5 with value
    0x1234 on the zero disk, and the reachable-state duplication for a
    freshly formatted zero disk. -/
theorem fat_copies_stay_identical_witness :
    (fat_set_entry czero 5 0x1234 (first_fat_sector + 5 * 2 / SECTOR_SIZE)
        (5 * 2 % SECTOR_SIZE) =
      fat_set_entry czero 5 0x1234 (first_fat_sector + 5 * 2 / SECTOR_SIZE + SECTORS_PER_FAT)
        (5 * 2 % SECTOR_SIZE)) ∧
    fatCopiesEq (fat16_init czero) :=
  ⟨(fat_copies_stay_identical.1 czero 5 0x1234 (by decide)).1,
    fat_copies_stay_identical.2 (fat16_init czero) (Reach.init czero)⟩

end CriddOS
